import Mathlib

/-!
Verification of the channel state synchronization core of a chat UI
component library (the `Channel` orchestration component plus the
`MessageTeam` read-status widget), shallowly embedded in Lean.

The embedding mirrors `src/components/Channel/Channel.js` and
`src/components/Message/MessageTeam.tsx`.  The backend SDK's channel-state
primitives (`channel.state.addMessageSorted`, `filterErrorMessages`,
`removeMessage`, `threads`) are external collaborators whose source is not
part of this repository; they are modelled from the specification's Channel
State Store contract.  Asynchronous backend calls are modelled by passing
their result (`Except`) as an explicit parameter; a debounced completion
callback is modelled as applied immediately (its leading edge).
-/

namespace StreamChatReact

/-- A chat message, with the fields the synchronization core reads:
identifier, author, text, attachments, mentioned users, delivery `status`
(`sending` / `received` / `failed`), message `type`, optional thread
`parent_id`, `show_in_channel`, and a creation order key. -/
structure Message where
  id : String
  text : String
  user_id : String
  status : String
  mtype : String
  parent_id : Option String
  show_in_channel : Bool
  attachments : List String
  mentioned_users : List String
  created_at : Nat
  deriving DecidableEq, Repr

/-- The backend-held channel state (`channel.state`): the main message
sequence plus the per-thread reply sequences (`channel.state.threads`),
keyed by the thread root's identifier. -/
structure ChannelState where
  messages : List Message
  threads : List (String × List Message)
  deriving DecidableEq, Repr

/-- Lookup of `channel.state.threads[p]`, defaulting to the empty list
(the `|| []` idiom of the source). -/
def threadsGet (threads : List (String × List Message)) (p : String) : List Message :=
  match threads.lookup p with
  | some l => l
  | none => []

/-- Replace (or create) the reply list stored under key `p`. -/
def threadsSet (threads : List (String × List Message)) (p : String)
    (l : List Message) : List (String × List Message) :=
  if threads.any (fun e => e.1 == p) then
    threads.map (fun e => if e.1 = p then (p, l) else e)
  else
    (p, l) :: threads

/-- Insertion into a message sequence keeping it sorted by creation time
with ties broken by identifier. -/
def insertSorted : List Message → Message → List Message
  | [], m => [m]
  | x :: xs, m =>
    if m.created_at < x.created_at ∨ (m.created_at = x.created_at ∧ m.id ≤ x.id) then
      m :: x :: xs
    else
      x :: insertSorted xs m

/-- Modelled from the spec: the Channel State Store's `addOrReplace`
primitive — insert a message keeping sort order by creation time with ties
broken by identifier; if a message with the same identifier already
exists, it is replaced in place, preserving its position. -/
def addOrReplaceList (msgs : List Message) (m : Message) : List Message :=
  if msgs.any (fun x => x.id == m.id) then
    msgs.map (fun x => if x.id = m.id then m else x)
  else
    insertSorted msgs m

/-- Modelled from the spec: the external SDK's
`channel.state.addMessageSorted` — per the source's comment it "adds to
both the main channel state as well as any reply threads": the main
sequence always receives the message, and when `parent_id` is set the
corresponding thread sequence receives it as well (add-or-replace
semantics in both). -/
def ChannelState.addMessageSorted (cs : ChannelState) (m : Message) : ChannelState :=
  { messages := addOrReplaceList cs.messages m,
    threads :=
      match m.parent_id with
      | none => cs.threads
      | some p => threadsSet cs.threads p (addOrReplaceList (threadsGet cs.threads p) m) }

/-- Modelled from the spec: the external SDK's
`channel.state.filterErrorMessages`, which the spec's Channel State Store
contract describes as `filterFailed` — "discards every message currently
in `failed` status" from the channel state. -/
def ChannelState.filterErrorMessages (cs : ChannelState) : ChannelState :=
  { messages := cs.messages.filter (fun m => m.status ≠ "failed"),
    threads := cs.threads.map (fun e => (e.1, e.2.filter (fun m => m.status ≠ "failed"))) }

/-- Modelled from the spec: the external SDK's
`channel.state.removeMessage` — "deletes by identifier from both the main
sequence and any thread sequence that contains it". -/
def ChannelState.removeMessage (cs : ChannelState) (m : Message) : ChannelState :=
  { messages := cs.messages.filter (fun x => x.id ≠ m.id),
    threads := cs.threads.map (fun e => (e.1, e.2.filter (fun x => x.id ≠ m.id))) }

/-- The `ChannelInner` component's own React state: the flags and
sequences held in `useState` hooks. -/
structure ViewState where
  loadingMore : Bool
  hasMore : Bool
  messages : List Message
  thread : Option Message
  threadMessages : List Message
  threadLoadingMore : Bool
  threadHasMore : Bool
  deriving DecidableEq, Repr

/-- The guard of `loadMore`:
`if (loadingMore || oldestMessage?.status !== 'received') return;` where
`oldestMessage = messages[0]` (an empty list gives `undefined`, whose
`status` is not `'received'`). -/
def loadMoreBlocked (v : ViewState) : Bool :=
  v.loadingMore ||
    (match v.messages.head? with
     | some oldest => oldest.status != "received"
     | none => true)

/-- The guard of `loadMoreThread`:
`if (threadLoadingMore || !thread) return;`. -/
def loadMoreThreadBlocked (v : ViewState) : Bool :=
  v.threadLoadingMore || v.thread.isNone

/-- Result of one pagination call: the component state afterwards, whether
a backend fetch was issued, the `id_lt` bound sent with it (when one was),
and whether an exception escaped to the caller. -/
structure LoadMoreOutcome where
  view : ViewState
  fetched : Bool
  idLt : Option (Option String)
  threw : Bool
  deriving DecidableEq, Repr

/-- `loadMore(limit)`: reject if blocked; otherwise issue
`channel.query({messages:{limit, id_lt: oldestID}})`.  The fetch outcome is
passed in: on success it carries the returned page together with
`channel.state.messages` after the SDK merged the page, and the debounced
`loadMoreFinished` applies `hasMore := (page length = limit)` and the new
sequence; on exception the handler logs, clears `loadingMore` and
returns. -/
def loadMore (v : ViewState) (limit : Nat)
    (fetchResult : Except Unit (List Message × List Message)) : LoadMoreOutcome :=
  if loadMoreBlocked v then ⟨v, false, none, false⟩
  else
    let oldestID := (v.messages.head?).map Message.id
    match fetchResult with
    | Except.error _ => ⟨{ v with loadingMore := false }, true, some oldestID, false⟩
    | Except.ok (page, newMessages) =>
      ⟨{ v with
          loadingMore := false,
          hasMore := page.length == limit,
          messages := newMessages },
        true, some oldestID, false⟩

/-- `loadMoreThread()`: reject if blocked; otherwise issue
`channel.getReplies(parentID, {limit: 50, id_lt: oldestMessageID})` where
`oldestMessageID` comes from `channel.state.threads[parentID] || []`.
There is no try/catch: a rejected fetch escapes to the caller with
`threadLoadingMore` still set.  On success the debounced
`loadMoreThreadFinished` applies `threadHasMore := (page length = 50)` and
the refreshed `channel.state.threads[parentID] || []`. -/
def loadMoreThread (v : ViewState) (cs : ChannelState)
    (fetchResult : Except Unit (List Message × ChannelState)) : LoadMoreOutcome :=
  if loadMoreThreadBlocked v then ⟨v, false, none, false⟩
  else
    match v.thread with
    | none => ⟨v, false, none, false⟩
    | some t =>
      let parentID := t.id
      let oldMessages := threadsGet cs.threads parentID
      let oldestMessageID := (oldMessages.head?).map Message.id
      match fetchResult with
      | Except.error _ =>
        ⟨{ v with threadLoadingMore := true }, true, some oldestMessageID, true⟩
      | Except.ok (page, cs') =>
        ⟨{ v with
            threadLoadingMore := false,
            threadHasMore := page.length == 50,
            threadMessages := threadsGet cs'.threads parentID },
          true, some oldestMessageID, false⟩

/-- `updateMessage(updatedMessage)`: applies the message to the SDK store
via `addMessageSorted`, then updates the component state — the thread
reply sequence is re-read from `channel.state.threads[updatedMessage.parent_id]`
whenever a thread is open and the message has a `parent_id` (whatever
thread that is), and `messages` is re-read from the store. -/
def updateMessage (cs : ChannelState) (v : ViewState) (m : Message) :
    ChannelState × ViewState :=
  let cs' := cs.addMessageSorted m
  (cs',
    { v with
      threadMessages :=
        match v.thread, m.parent_id with
        | some _, some p => threadsGet cs'.threads p
        | _, _ => v.threadMessages,
      messages := cs'.messages })

/-- Result of `doSendMessage` / `sendMessage` / `retrySendMessage`: the
SDK channel state and component state afterwards, and whether an exception
escaped to the caller. -/
structure SendOutcome where
  channelSt : ChannelState
  view : ViewState
  threw : Bool
  deriving DecidableEq, Repr

/-- `doSendMessage(message)`: issue the backend send (its result is the
`sendResult` parameter; `Except.ok` carries the optional
`messageResponse.message`).  On success with a response message, replace
the optimistic entry by the authoritative one with `status := received`;
on an exception, replace it by the original message with
`status := failed`.  The whole body sits in a try/catch, so no exception
escapes. -/
def doSendMessage (cs : ChannelState) (v : ViewState) (message : Message)
    (sendResult : Except Unit (Option Message)) : SendOutcome :=
  match sendResult with
  | Except.ok respMessage =>
    match respMessage with
    | some resp =>
      let r := updateMessage cs v { resp with status := "received" }
      ⟨r.1, r.2, false⟩
    | none => ⟨cs, v, false⟩
  | Except.error _ =>
    let r := updateMessage cs v { message with status := "failed" }
    ⟨r.1, r.2, false⟩

/-- `createMessagePreview(text, attachments, parent, mentioned_users)`:
the optimistic client-side message — identifier
`clientUserId ++ "-" ++ uuid`, `type regular`, `status sending`, the local
user as author, an optimistic timestamp, and `parent_id` taken from the
parent when one is given. -/
def createMessagePreview (clientUserId uuid : String) (text : String)
    (attachments : List String) (parent : Option Message)
    (mentioned_users : List String) (now : Nat) : Message :=
  { id := clientUserId ++ "-" ++ uuid,
    text := text,
    user_id := clientUserId,
    status := "sending",
    mtype := "regular",
    parent_id := parent.map Message.id,
    show_in_channel := false,
    attachments := attachments,
    mentioned_users := mentioned_users,
    created_at := now }

/-- The local part of `sendMessage`, up to (and excluding) the backend
request: `channel.state.filterErrorMessages()`, build the preview, insert
it with `updateMessage`.  Returns the state in which the send is issued
together with the preview handed to `doSendMessage`. -/
def sendMessageLocal (cs : ChannelState) (v : ViewState) (clientUserId uuid : String)
    (text : String) (attachments : List String) (parent : Option Message)
    (mentioned_users : List String) (now : Nat) :
    (ChannelState × ViewState) × Message :=
  let cs1 := cs.filterErrorMessages
  let preview := createMessagePreview clientUserId uuid text attachments parent mentioned_users now
  (updateMessage cs1 v preview, preview)

/-- `sendMessage({text, attachments, mentioned_users, parent})`: the local
phase (`sendMessageLocal`) followed by `doSendMessage` on the preview. -/
def sendMessage (cs : ChannelState) (v : ViewState) (clientUserId uuid : String)
    (text : String) (attachments : List String) (parent : Option Message)
    (mentioned_users : List String) (now : Nat)
    (sendResult : Except Unit (Option Message)) : SendOutcome :=
  let r := sendMessageLocal cs v clientUserId uuid text attachments parent mentioned_users now
  doSendMessage r.1.1 r.1.2 r.2 sendResult

/-- `retrySendMessage(message)`: set the message back to `status sending`
in place, then re-issue the send with the original message. -/
def retrySendMessage (cs : ChannelState) (v : ViewState) (message : Message)
    (sendResult : Except Unit (Option Message)) : SendOutcome :=
  let r := updateMessage cs v { message with status := "sending" }
  doSendMessage r.1 r.2 message sendResult

/-- `removeMessage(message)`: remove from the SDK store, re-read
`messages`, and set `threadMessages` to
`channel.state.threads[message.parent_id] || []` — when `parent_id` is
absent the lookup misses and the reply sequence becomes empty. -/
def removeMessage (cs : ChannelState) (v : ViewState) (message : Message) :
    ChannelState × ViewState :=
  let cs' := cs.removeMessage message
  (cs',
    { v with
      messages := cs'.messages,
      threadMessages :=
        match message.parent_id with
        | some p => threadsGet cs'.threads p
        | none => [] })

/-- The thread-root refresh effect: whenever `messages` changes while a
thread is open, scan the sequence from its most recent end for an entry
with the root's identifier; replace the root with the first one found,
otherwise keep the root unchanged. -/
def refreshThreadRoot (msgs : List Message) (thread : Option Message) : Option Message :=
  match thread with
  | none => none
  | some t =>
    match msgs.reverse.find? (fun m => m.id == t.id) with
    | some m => some m
    | none => some t

/-- The read side effect `handleEvent` chooses for a `message.new`
event: mark the channel read (throttled), or recompute the unread count
into the document-title badge, or nothing. -/
inductive ReadEffect where
  | markRead
  | titleBadge (unread : Nat)
  | noEffect
  deriving DecidableEq, Repr

/-- The `message.new` branch of `handleEvent`: the message counts for the
main channel unless it is a thread reply (`parent_id` set) with
`show_in_channel` false; for a counting message from someone other than
the local user, a foregrounded document marks the channel read
(throttled), a backgrounded one shows the recomputed unread count in the
title badge; otherwise nothing happens. -/
def newMessageEffect (clientUserId : String) (documentHidden : Bool)
    (countUnread : Nat) (m : Message) : ReadEffect :=
  let mainChannelUpdated : Bool := !(m.parent_id.isSome && !m.show_in_channel)
  if mainChannelUpdated = true ∧ m.user_id ≠ clientUserId then
    if documentHidden = false then ReadEffect.markRead
    else ReadEffect.titleBadge countUnread
  else ReadEffect.noEffect

/-- A read-receipt entry of the `readBy` list (only the user identifier
matters to the logic under verification). -/
structure UserRef where
  id : String
  deriving DecidableEq, Repr

/-- `justReadByMe` of `MessageTeamStatus`:
`readBy.length === 1 && readBy[0] && readBy[0].id === client.user.id`. -/
def justReadByMe (readBy : List UserRef) (clientUserId : String) : Bool :=
  decide (readBy.length = 1) &&
    (match readBy.head? with
     | some r => decide (r.id = clientUserId)
     | none => false)

/-- Which branch of `MessageTeamStatus` renders. -/
inductive TeamStatusRender where
  | nothing
  | sendingIndicator
  | readList
  | delivered
  deriving DecidableEq, Repr

/-- The branch structure of `MessageTeamStatus`: nothing unless it is the
local user's non-error message; a sending indicator while
`status === 'sending'`; the read-status avatar path when `readBy` is
non-empty, this is not a thread list, and not `justReadByMe`; a Delivered
check for the last received message outside a thread list; otherwise
nothing. -/
def messageTeamStatus (isMyMessage : Bool) (messageType messageStatus messageId : String)
    (readBy : List UserRef) (threadList : Bool) (lastReceivedId : Option String)
    (clientUserId : String) : TeamStatusRender :=
  if isMyMessage = false ∨ messageType = "error" then TeamStatusRender.nothing
  else if messageStatus = "sending" then TeamStatusRender.sendingIndicator
  else if readBy ≠ [] ∧ threadList = false ∧ justReadByMe readBy clientUserId = false then
    TeamStatusRender.readList
  else if messageStatus = "received" ∧ lastReceivedId = some messageId ∧ threadList = false then
    TeamStatusRender.delivered
  else TeamStatusRender.nothing

/-- Number of entries of a message sequence carrying a given identifier. -/
def countId (msgs : List Message) (i : String) : Nat :=
  (msgs.filter (fun x => x.id == i)).length

/-- A message sequence has pairwise distinct identifiers. -/
def nodupIds (msgs : List Message) : Prop :=
  (msgs.map Message.id).Nodup

instance (msgs : List Message) : Decidable (nodupIds msgs) :=
  inferInstanceAs (Decidable ((msgs.map Message.id).Nodup))

def mkMsg (i user st : String) (parent : Option String) (created : Nat) : Message :=
  { id := i, text := "t", user_id := user, status := st, mtype := "regular",
    parent_id := parent, show_in_channel := true, attachments := [],
    mentioned_users := [], created_at := created }

def exRoot : Message := mkMsg "r1" "alice" "received" none 0

def exReceived : Message := mkMsg "m1" "alice" "received" none 1

def exRootEdited : Message := { exRoot with text := "edited" }

def exOtherMsg : Message := mkMsg "m9" "bob" "received" none 9

def exMe : UserRef := ⟨"me"⟩

def exBob : UserRef := ⟨"bob"⟩

def exFailedMsg : Message := mkMsg "f1" "alice" "failed" none 2

def exPreview : Message := createMessagePreview "me" "u1" "hi" [] none [] 5

def exViewBoth : ViewState :=
  { loadingMore := false, hasMore := false, messages := [exReceived],
    thread := some exRoot, threadMessages := [], threadLoadingMore := false,
    threadHasMore := false }

def exViewBlocked : ViewState :=
  { exViewBoth with loadingMore := true, threadLoadingMore := true }

theorem countId_cons (x : Message) (xs : List Message) (i : String) :
    countId (x :: xs) i = (if x.id = i then 1 else 0) + countId xs i := by
  by_cases h : x.id = i <;> simp [countId, List.filter_cons, h] <;> omega

theorem countId_eq_zero {msgs : List Message} {i : String}
    (h : ∀ x ∈ msgs, x.id ≠ i) : countId msgs i = 0 := by
  induction msgs with
  | nil => rfl
  | cons x xs ih =>
    rw [countId_cons, if_neg (h x (List.mem_cons_self x xs)), ih]
    intro y hy
    exact h y (List.mem_cons_of_mem x hy)

theorem insertSorted_perm (msgs : List Message) (m : Message) :
    List.Perm (insertSorted msgs m) (m :: msgs) := by
  induction msgs with
  | nil => simp [insertSorted]
  | cons x xs ih =>
    simp only [insertSorted]
    split
    · exact List.Perm.refl _
    · exact (ih.cons x).trans (List.Perm.swap m x xs)

theorem any_id_iff (msgs : List Message) (i : String) :
    msgs.any (fun x => x.id == i) = true ↔ ∃ y ∈ msgs, y.id = i := by
  simp [List.any_eq_true]

theorem countId_eq_one_of_mem {msgs : List Message} {y : Message}
    (hnd : nodupIds msgs) (hy : y ∈ msgs) : countId msgs y.id = 1 := by
  induction msgs with
  | nil => cases hy
  | cons x xs ih =>
    simp only [nodupIds, List.map_cons, List.nodup_cons] at hnd
    rcases List.mem_cons.mp hy with rfl | hy'
    · rw [countId_cons, if_pos rfl, countId_eq_zero]
      intro z hz hzy
      exact hnd.1 (hzy ▸ List.mem_map_of_mem Message.id hz)
    · have hne : x.id ≠ y.id := by
        intro he
        exact hnd.1 (he ▸ List.mem_map_of_mem Message.id hy')
      rw [countId_cons, if_neg hne, ih hnd.2 hy']

theorem countId_replace (msgs : List Message) (m : Message) :
    countId (msgs.map (fun x => if x.id = m.id then m else x)) m.id =
      countId msgs m.id := by
  induction msgs with
  | nil => rfl
  | cons x xs ih =>
    by_cases h : x.id = m.id <;> simp [List.map_cons, countId_cons, ih, h]

theorem countId_addOrReplaceList_self {msgs : List Message} (m : Message)
    (hnd : nodupIds msgs) : countId (addOrReplaceList msgs m) m.id = 1 := by
  unfold addOrReplaceList
  split
  · rename_i h
    rcases (any_id_iff msgs m.id).mp h with ⟨y, hy, hyid⟩
    rw [countId_replace, ← hyid, countId_eq_one_of_mem hnd hy]
  · rename_i h
    have hperm := (insertSorted_perm msgs m).filter (fun x => x.id == m.id)
    have : countId (insertSorted msgs m) m.id = countId (m :: msgs) m.id := by
      simpa [countId] using hperm.length_eq
    rw [this, countId_cons, if_pos rfl, countId_eq_zero]
    intro y hy hyid
    exact h ((any_id_iff msgs m.id).mpr ⟨y, hy, hyid⟩)

theorem mem_addOrReplaceList {msgs : List Message} {m x : Message}
    (h : x ∈ addOrReplaceList msgs m) : x = m ∨ x ∈ msgs := by
  unfold addOrReplaceList at h
  split at h
  · rcases List.mem_map.mp h with ⟨y, hy, he⟩
    by_cases hid : y.id = m.id
    · rw [if_pos hid] at he
      exact Or.inl he.symm
    · rw [if_neg hid] at he
      exact Or.inr (he ▸ hy)
  · exact List.mem_cons.mp ((insertSorted_perm msgs m).mem_iff.mp h)

theorem addOrReplaceList_eq_of_id {msgs : List Message} {m x : Message}
    (h : x ∈ addOrReplaceList msgs m) (hid : x.id = m.id) : x = m := by
  unfold addOrReplaceList at h
  split at h
  · rcases List.mem_map.mp h with ⟨y, hy, he⟩
    by_cases hyid : y.id = m.id
    · rw [if_pos hyid] at he
      exact he.symm
    · rw [if_neg hyid] at he
      exact absurd (he ▸ hid) hyid
  · rename_i hany
    rcases List.mem_cons.mp ((insertSorted_perm msgs m).mem_iff.mp h) with rfl | hx
    · rfl
    · exact absurd ((any_id_iff msgs m.id).mpr ⟨x, hx, hid⟩) hany

theorem nodupIds_filter {msgs : List Message} (p : Message → Bool)
    (hnd : nodupIds msgs) : nodupIds (msgs.filter p) :=
  ((List.filter_sublist msgs).map Message.id).nodup hnd

theorem nodupIds_addOrReplaceList {msgs : List Message} (m : Message)
    (hnd : nodupIds msgs) : nodupIds (addOrReplaceList msgs m) := by
  unfold addOrReplaceList
  split
  · have hfun : ∀ x : Message, Message.id (if x.id = m.id then m else x) = x.id := by
      intro x
      by_cases hx : x.id = m.id <;> simp [hx]
    unfold nodupIds
    rw [List.map_map]
    have : (Message.id ∘ fun x : Message => if x.id = m.id then m else x) = Message.id := by
      funext x
      exact hfun x
    rw [this]
    exact hnd
  · rename_i hany
    have hperm := (insertSorted_perm msgs m).map Message.id
    unfold nodupIds
    rw [hperm.nodup_iff]
    refine List.nodup_cons.mpr ⟨?_, hnd⟩
    intro hmem
    rcases List.mem_map.mp hmem with ⟨y, hy, hyid⟩
    exact hany ((any_id_iff msgs m.id).mpr ⟨y, hy, hyid⟩)

theorem lookup_mem {th : List (String × List Message)} {p : String} {l : List Message}
    (h : th.lookup p = some l) : (p, l) ∈ th := by
  induction th with
  | nil => cases h
  | cons e es ih =>
    obtain ⟨k, b⟩ := e
    rw [List.lookup] at h
    split at h
    · rename_i hk
      cases h
      have : p = k := by simpa using hk
      subst this
      exact List.mem_cons_self _ _
    · exact List.mem_cons_of_mem _ (ih h)

theorem threadsGet_mem {th : List (String × List Message)} {p : String} {x : Message}
    (h : x ∈ threadsGet th p) : ∃ e ∈ th, x ∈ e.2 := by
  unfold threadsGet at h
  split at h
  · rename_i l hl
    exact ⟨(p, l), lookup_mem hl, h⟩
  · cases h

theorem mem_threadsSet {th : List (String × List Message)} {p : String}
    {l : List Message} {e : String × List Message} (h : e ∈ threadsSet th p l) :
    e = (p, l) ∨ e ∈ th := by
  unfold threadsSet at h
  split at h
  · rcases List.mem_map.mp h with ⟨y, hy, he⟩
    by_cases hk : y.1 = p
    · rw [if_pos hk] at he
      exact Or.inl he.symm
    · rw [if_neg hk] at he
      exact Or.inr (he ▸ hy)
  · rcases List.mem_cons.mp h with he | he
    · exact Or.inl he
    · exact Or.inr he

theorem find?_decomp {p : Message → Bool} {l : List Message} {m : Message}
    (h : l.find? p = some m) :
    ∃ pre post, l = pre ++ m :: post ∧ ∀ x ∈ pre, p x = false := by
  induction l with
  | nil => cases h
  | cons x xs ih =>
    by_cases hx : p x = true
    · rw [List.find?_cons_of_pos _ hx] at h
      cases h
      exact ⟨[], xs, rfl, by simp⟩
    · rw [List.find?_cons_of_neg _ (by simpa using hx)] at h
      rcases ih h with ⟨pre, post, hl, hpre⟩
      refine ⟨x :: pre, post, by rw [hl, List.cons_append], ?_⟩
      intro y hy
      rcases List.mem_cons.mp hy with rfl | hy'
      · simpa using hx
      · exact hpre y hy'

theorem filterErrorMessages_no_failed (cs : ChannelState) :
    (∀ x ∈ cs.filterErrorMessages.messages, x.status ≠ "failed") ∧
    (∀ e ∈ cs.filterErrorMessages.threads, ∀ x ∈ e.2, x.status ≠ "failed") := by
  constructor
  · intro x hx
    have := (List.mem_filter.mp hx).2
    simpa using this
  · intro e he x hx
    rcases List.mem_map.mp he with ⟨e0, _, rfl⟩
    have := (List.mem_filter.mp hx).2
    simpa using this

/-- C1 counterexample: with a thread open and no thread fetch in flight, a
`getReplies` exception escapes `loadMoreThread` to the caller and leaves
`threadLoadingMore` set, so the claim that both pagination instances clear
their in-flight flag and swallow the exception is false for the thread
instance. -/
theorem thread_pagination_exception_escapes :
    (loadMoreThread exViewBoth ⟨[], []⟩ (Except.error ())).threw = true ∧
    (loadMoreThread exViewBoth ⟨[], []⟩ (Except.error ())).view.threadLoadingMore = true := by
  decide

/-- C1 (amended): on a fetch exception the main-list `loadMore` aborts
without propagating — it clears `loadingMore` and leaves `hasMore` and the
message sequence unchanged — while `loadMoreThread`, which has no
exception handler, propagates the exception to its caller and leaves
`threadLoadingMore` set (with `threadHasMore` and the reply sequence still
unchanged). -/
theorem pagination_fetch_exception (v : ViewState) (cs : ChannelState) (limit : Nat)
    (hm : loadMoreBlocked v = false) (ht : loadMoreThreadBlocked v = false) :
    ((loadMore v limit (Except.error ())).threw = false ∧
     (loadMore v limit (Except.error ())).view.loadingMore = false ∧
     (loadMore v limit (Except.error ())).view.hasMore = v.hasMore ∧
     (loadMore v limit (Except.error ())).view.messages = v.messages) ∧
    ((loadMoreThread v cs (Except.error ())).threw = true ∧
     (loadMoreThread v cs (Except.error ())).view.threadLoadingMore = true ∧
     (loadMoreThread v cs (Except.error ())).view.threadHasMore = v.threadHasMore ∧
     (loadMoreThread v cs (Except.error ())).view.threadMessages = v.threadMessages) := by
  obtain ⟨t, hvt⟩ : ∃ t, v.thread = some t := by
    cases hvt : v.thread
    · simp [loadMoreThreadBlocked, hvt] at ht
    · exact ⟨_, rfl⟩
  constructor
  · simp [loadMore, hm]
  · simp [loadMoreThread, ht, hvt]

theorem pagination_fetch_exception_witness :
    loadMoreBlocked exViewBoth = false ∧ loadMoreThreadBlocked exViewBoth = false ∧
    (((loadMore exViewBoth 10 (Except.error ())).threw = false ∧
      (loadMore exViewBoth 10 (Except.error ())).view.loadingMore = false ∧
      (loadMore exViewBoth 10 (Except.error ())).view.hasMore = exViewBoth.hasMore ∧
      (loadMore exViewBoth 10 (Except.error ())).view.messages = exViewBoth.messages) ∧
     ((loadMoreThread exViewBoth ⟨[], []⟩ (Except.error ())).threw = true ∧
      (loadMoreThread exViewBoth ⟨[], []⟩ (Except.error ())).view.threadLoadingMore = true ∧
      (loadMoreThread exViewBoth ⟨[], []⟩ (Except.error ())).view.threadHasMore = exViewBoth.threadHasMore ∧
      (loadMoreThread exViewBoth ⟨[], []⟩ (Except.error ())).view.threadMessages = exViewBoth.threadMessages)) :=
  ⟨by decide, by decide,
    pagination_fetch_exception exViewBoth ⟨[], []⟩ 10 (by decide) (by decide)⟩

/-- C2 counterexample: with a thread open whose reply sequence is empty
(no oldest reply at all) or whose oldest reply has status failed,
`loadMoreThread` still issues the backend fetch, so the claim that both
pagination instances require a non-empty sequence with a received oldest
item — and perform no fetch otherwise — is false for the thread
instance. -/
theorem thread_pagination_skips_preconditions :
    (loadMoreThread exViewBoth ⟨[], []⟩ (Except.ok ([], ⟨[], []⟩))).fetched = true ∧
    (loadMoreThread exViewBoth
        ⟨[], [("r1", [mkMsg "x" "alice" "failed" (some "r1") 3])]⟩
        (Except.ok ([], ⟨[], []⟩))).fetched = true := by
  decide

/-- C2 (amended): the main-list `loadMore` issues a backend fetch iff no
main fetch is in flight, the sequence is non-empty and its oldest entry
has status received, and a blocked call performs no fetch and leaves the
component state unchanged; `loadMoreThread` issues a fetch iff no thread
fetch is in flight and a thread is open — it never inspects the reply
sequence — and a blocked call likewise leaves the state unchanged. -/
theorem pagination_preconditions (v : ViewState) (cs : ChannelState) (limit : Nat)
    (fr : Except Unit (List Message × List Message))
    (frt : Except Unit (List Message × ChannelState)) :
    ((loadMore v limit fr).fetched = true ↔
      v.loadingMore = false ∧
        ∃ oldest, v.messages.head? = some oldest ∧ oldest.status = "received") ∧
    (loadMoreBlocked v = true → loadMore v limit fr = ⟨v, false, none, false⟩) ∧
    ((loadMoreThread v cs frt).fetched = true ↔
      v.threadLoadingMore = false ∧ v.thread.isSome = true) ∧
    (loadMoreThreadBlocked v = true → loadMoreThread v cs frt = ⟨v, false, none, false⟩) := by
  refine ⟨?_, ?_, ?_, ?_⟩
  · constructor
    · intro h
      by_cases hb : loadMoreBlocked v
      · simp [loadMore, hb] at h
      · have hb' := hb
        simp only [loadMoreBlocked, Bool.or_eq_true, not_or] at hb'
        cases hh : v.messages.head? with
        | none => simp [loadMoreBlocked, hh] at hb
        | some o =>
          by_cases hs : o.status = "received"
          · exact ⟨by simpa using hb'.1, o, rfl, hs⟩
          · simp [loadMoreBlocked, hh, hs] at hb
    · rintro ⟨hl, o, hh, hs⟩
      have hb : loadMoreBlocked v = false := by
        simp [loadMoreBlocked, hl, hh, hs]
      cases fr with
      | error e => simp [loadMore, hb]
      | ok pr =>
        obtain ⟨page, nm⟩ := pr
        simp [loadMore, hb]
  · intro hb
    cases fr with
    | error e => simp [loadMore, hb]
    | ok pr =>
      obtain ⟨page, nm⟩ := pr
      simp [loadMore, hb]
  · constructor
    · intro h
      by_cases hb : loadMoreThreadBlocked v
      · simp [loadMoreThread, hb] at h
      · have hb' := hb
        simp only [loadMoreThreadBlocked, Bool.or_eq_true, not_or] at hb'
        cases hvt : v.thread with
        | none => simp [loadMoreThreadBlocked, hvt] at hb
        | some t => exact ⟨by simpa using hb'.1, by simp [hvt]⟩
    · rintro ⟨hl, hsome⟩
      obtain ⟨t, hvt⟩ := Option.isSome_iff_exists.mp hsome
      have hb : loadMoreThreadBlocked v = false := by
        simp [loadMoreThreadBlocked, hl, hvt]
      cases frt with
      | error e => simp [loadMoreThread, hb, hvt]
      | ok pr =>
        obtain ⟨page, cs2⟩ := pr
        simp [loadMoreThread, hb, hvt]
  · intro hb
    cases frt with
    | error e => simp [loadMoreThread, hb]
    | ok pr =>
      obtain ⟨page, cs2⟩ := pr
      simp [loadMoreThread, hb]

theorem pagination_preconditions_witness :
    loadMoreThreadBlocked exViewBlocked = true ∧
    loadMoreThread exViewBlocked ⟨[], []⟩ (Except.error ()) =
      ⟨exViewBlocked, false, none, false⟩ :=
  ⟨by decide,
    (pagination_preconditions exViewBlocked ⟨[], []⟩ 10 (Except.error ())
      (Except.error ())).2.2.2 (by decide)⟩

/-- C3: `sendMessage` purges failed messages before inserting the
optimistic preview — the full send runs the backend request on the state
produced by the local phase, and in that state no message (in the main
sequence or in any thread sequence) has status failed: the stale failures
were discarded and the freshly inserted preview is in status sending. -/
theorem sendMessage_purges_failed (cs : ChannelState) (v : ViewState)
    (clientUserId uuid text : String) (attachments : List String)
    (parent : Option Message) (mentioned_users : List String) (now : Nat)
    (sendResult : Except Unit (Option Message)) :
    (sendMessage cs v clientUserId uuid text attachments parent mentioned_users now
        sendResult =
      doSendMessage
        (sendMessageLocal cs v clientUserId uuid text attachments parent
          mentioned_users now).1.1
        (sendMessageLocal cs v clientUserId uuid text attachments parent
          mentioned_users now).1.2
        (sendMessageLocal cs v clientUserId uuid text attachments parent
          mentioned_users now).2
        sendResult) ∧
    (∀ x ∈ (sendMessageLocal cs v clientUserId uuid text attachments parent
        mentioned_users now).1.1.messages, x.status ≠ "failed") ∧
    (∀ e ∈ (sendMessageLocal cs v clientUserId uuid text attachments parent
        mentioned_users now).1.1.threads, ∀ x ∈ e.2, x.status ≠ "failed") := by
  set preview :=
    createMessagePreview clientUserId uuid text attachments parent mentioned_users now
    with hpv
  have hcs2 :
      (sendMessageLocal cs v clientUserId uuid text attachments parent
        mentioned_users now).1.1 =
        cs.filterErrorMessages.addMessageSorted preview := rfl
  have hfil := filterErrorMessages_no_failed cs
  refine ⟨rfl, ?_, ?_⟩
  · intro x hx
    rw [hcs2] at hx
    rcases mem_addOrReplaceList hx with rfl | hx'
    · simp [hpv, createMessagePreview]
    · exact hfil.1 x hx'
  · intro e he x hx
    rw [hcs2] at he
    unfold ChannelState.addMessageSorted at he
    dsimp only at he
    revert he
    cases hmp : preview.parent_id with
    | none =>
      intro he
      exact hfil.2 e he x hx
    | some p =>
      intro he
      rcases mem_threadsSet he with rfl | he'
      · rcases mem_addOrReplaceList hx with rfl | hx'
        · simp [hpv, createMessagePreview]
        · rcases threadsGet_mem hx' with ⟨e0, he0, hx0⟩
          exact hfil.2 e0 he0 x hx0
      · exact hfil.2 e he' x hx

theorem sendMessage_purges_failed_witness :
    exPreview ∈ (sendMessageLocal ⟨[exFailedMsg], []⟩ exViewBoth "me" "u1" "hi" [] none
      [] 5).1.1.messages ∧
    exPreview.status ≠ "failed" :=
  ⟨by decide,
    (sendMessage_purges_failed ⟨[exFailedMsg], []⟩ exViewBoth "me" "u1" "hi" [] none
      [] 5 (Except.error ())).2.1 exPreview (by decide)⟩

/-- C4: when the backend send throws, both `sendMessage` and
`retrySendMessage` swallow the exception and leave exactly one message
carrying the optimistic identifier in the channel state, in status failed
and with the original text, attachments and mentioned users preserved. -/
theorem send_retry_failure_single_failed (cs : ChannelState) (v : ViewState)
    (clientUserId uuid text : String) (attachments : List String)
    (parent : Option Message) (mentioned_users : List String) (now : Nat)
    (message : Message) (hnd : nodupIds cs.messages) :
    ((sendMessage cs v clientUserId uuid text attachments parent mentioned_users now
        (Except.error ())).threw = false ∧
     countId (sendMessage cs v clientUserId uuid text attachments parent mentioned_users
        now (Except.error ())).channelSt.messages (clientUserId ++ "-" ++ uuid) = 1 ∧
     (∀ x ∈ (sendMessage cs v clientUserId uuid text attachments parent mentioned_users
        now (Except.error ())).channelSt.messages,
        x.id = clientUserId ++ "-" ++ uuid →
          x.status = "failed" ∧ x.text = text ∧ x.attachments = attachments ∧
            x.mentioned_users = mentioned_users)) ∧
    ((retrySendMessage cs v message (Except.error ())).threw = false ∧
     countId (retrySendMessage cs v message (Except.error ())).channelSt.messages
        message.id = 1 ∧
     (∀ x ∈ (retrySendMessage cs v message (Except.error ())).channelSt.messages,
        x.id = message.id →
          x.status = "failed" ∧ x.text = message.text ∧
            x.attachments = message.attachments ∧
            x.mentioned_users = message.mentioned_users)) := by
  set preview :=
    createMessagePreview clientUserId uuid text attachments parent mentioned_users now
    with hpv
  have hmsgs :
      (sendMessage cs v clientUserId uuid text attachments parent mentioned_users now
        (Except.error ())).channelSt.messages =
      addOrReplaceList (addOrReplaceList cs.filterErrorMessages.messages preview)
        { preview with status := "failed" } := rfl
  have hnd1 : nodupIds cs.filterErrorMessages.messages := nodupIds_filter _ hnd
  have hnd2 : nodupIds (addOrReplaceList cs.filterErrorMessages.messages preview) :=
    nodupIds_addOrReplaceList _ hnd1
  have hmsgsR :
      (retrySendMessage cs v message (Except.error ())).channelSt.messages =
      addOrReplaceList (addOrReplaceList cs.messages { message with status := "sending" })
        { message with status := "failed" } := rfl
  have hndR : nodupIds (addOrReplaceList cs.messages { message with status := "sending" }) :=
    nodupIds_addOrReplaceList _ hnd
  refine ⟨⟨rfl, ?_, ?_⟩, ⟨rfl, ?_, ?_⟩⟩
  · rw [hmsgs]
    exact countId_addOrReplaceList_self _ hnd2
  · intro x hx hid
    rw [hmsgs] at hx
    have hx' : x = { preview with status := "failed" } :=
      addOrReplaceList_eq_of_id hx hid
    subst hx'
    exact ⟨rfl, rfl, rfl, rfl⟩
  · rw [hmsgsR]
    exact countId_addOrReplaceList_self _ hndR
  · intro x hx hid
    rw [hmsgsR] at hx
    have hx' : x = { message with status := "failed" } :=
      addOrReplaceList_eq_of_id hx hid
    subst hx'
    exact ⟨rfl, rfl, rfl, rfl⟩

theorem send_retry_failure_single_failed_witness :
    nodupIds (⟨[exFailedMsg], []⟩ : ChannelState).messages ∧
    (((sendMessage ⟨[exFailedMsg], []⟩ exViewBoth "me" "u1" "hi" [] none [] 5
        (Except.error ())).threw = false ∧
      countId (sendMessage ⟨[exFailedMsg], []⟩ exViewBoth "me" "u1" "hi" [] none [] 5
        (Except.error ())).channelSt.messages ("me" ++ "-" ++ "u1") = 1 ∧
      (∀ x ∈ (sendMessage ⟨[exFailedMsg], []⟩ exViewBoth "me" "u1" "hi" [] none [] 5
        (Except.error ())).channelSt.messages,
        x.id = "me" ++ "-" ++ "u1" →
          x.status = "failed" ∧ x.text = "hi" ∧ x.attachments = [] ∧
            x.mentioned_users = [])) ∧
     ((retrySendMessage ⟨[exFailedMsg], []⟩ exViewBoth exFailedMsg
        (Except.error ())).threw = false ∧
      countId (retrySendMessage ⟨[exFailedMsg], []⟩ exViewBoth exFailedMsg
        (Except.error ())).channelSt.messages exFailedMsg.id = 1 ∧
      (∀ x ∈ (retrySendMessage ⟨[exFailedMsg], []⟩ exViewBoth exFailedMsg
        (Except.error ())).channelSt.messages,
        x.id = exFailedMsg.id →
          x.status = "failed" ∧ x.text = exFailedMsg.text ∧
            x.attachments = exFailedMsg.attachments ∧
            x.mentioned_users = exFailedMsg.mentioned_users))) :=
  ⟨by decide,
    send_retry_failure_single_failed ⟨[exFailedMsg], []⟩ exViewBoth "me" "u1" "hi" []
      none [] 5 exFailedMsg (by decide)⟩

/-- C5 counterexample: with the thread rooted at `r1` open, updating a
reply whose `parent_id` is the different thread `r2` replaces the exposed
reply sequence (with `r2`'s replies), so the claim that edits to replies
of other threads leave the open thread's reply sequence unchanged is
false. -/
theorem updateMessage_other_thread_leak :
    (updateMessage ⟨[], [("r2", [])]⟩ exViewBoth
        (mkMsg "x" "bob" "received" (some "r2") 2)).2.threadMessages ≠
      exViewBoth.threadMessages ∧
    (mkMsg "x" "bob" "received" (some "r2") 2).parent_id ≠ some exRoot.id := by
  decide

/-- C5 (amended): `updateMessage` applies the authoritative message to the
store — afterwards exactly one main-sequence entry carries its identifier
and that entry is the message itself, and the exposed main sequence is the
store's — and it re-reads the exposed thread reply sequence if and only
if a thread is open and the message has a `parent_id`: the sequence is
re-read from the store's entry for that `parent_id`, even when it belongs
to a thread other than the open one; with no thread open or no
`parent_id`, the reply sequence is left unchanged. -/
theorem updateMessage_applies_and_refreshes (cs : ChannelState) (v : ViewState)
    (m : Message) (hnd : nodupIds cs.messages) :
    countId (updateMessage cs v m).1.messages m.id = 1 ∧
    (∀ x ∈ (updateMessage cs v m).1.messages, x.id = m.id → x = m) ∧
    (updateMessage cs v m).2.messages = (updateMessage cs v m).1.messages ∧
    (∀ t p, v.thread = some t → m.parent_id = some p →
      (updateMessage cs v m).2.threadMessages =
        threadsGet (updateMessage cs v m).1.threads p) ∧
    ((v.thread = none ∨ m.parent_id = none) →
      (updateMessage cs v m).2.threadMessages = v.threadMessages) := by
  refine ⟨?_, ?_, rfl, ?_, ?_⟩
  · exact countId_addOrReplaceList_self _ hnd
  · intro x hx hid
    exact addOrReplaceList_eq_of_id hx hid
  · intro t p hvt hmp
    simp [updateMessage, hvt, hmp]
  · rintro (hvt | hmp)
    · cases hmp : m.parent_id <;> simp [updateMessage, hvt, hmp]
    · cases hvt : v.thread <;> simp [updateMessage, hvt, hmp]

theorem updateMessage_applies_and_refreshes_witness :
    (nodupIds (⟨[exRoot], [("r1", [])]⟩ : ChannelState).messages ∧
      exViewBoth.thread = some exRoot ∧
      (mkMsg "y" "bob" "received" (some "r1") 3).parent_id = some "r1") ∧
    (updateMessage ⟨[exRoot], [("r1", [])]⟩ exViewBoth
        (mkMsg "y" "bob" "received" (some "r1") 3)).2.threadMessages =
      threadsGet (updateMessage ⟨[exRoot], [("r1", [])]⟩ exViewBoth
        (mkMsg "y" "bob" "received" (some "r1") 3)).1.threads "r1" :=
  ⟨⟨by decide, by decide, by decide⟩,
    (updateMessage_applies_and_refreshes ⟨[exRoot], [("r1", [])]⟩ exViewBoth
      (mkMsg "y" "bob" "received" (some "r1") 3) (by decide)).2.2.2.1 exRoot "r1"
      (by decide) (by decide)⟩

/-- C6: while a thread is open, the root-refresh effect scans the current
main sequence most-recent-first for an entry carrying the thread root's
identifier: if none matches, the previously held root is retained
unchanged; if one matches, the stored root is replaced by the most recent
such entry (no entry after it in the sequence carries that identifier). -/
theorem thread_root_refresh (msgs : List Message) (t : Message) :
    ((∀ x ∈ msgs, x.id ≠ t.id) → refreshThreadRoot msgs (some t) = some t) ∧
    ((∃ x ∈ msgs, x.id = t.id) →
      ∃ m' pre post, refreshThreadRoot msgs (some t) = some m' ∧ m'.id = t.id ∧
        msgs = pre ++ m' :: post ∧ ∀ x ∈ post, x.id ≠ t.id) := by
  constructor
  · intro h
    have hf : msgs.reverse.find? (fun m => m.id == t.id) = none := by
      rw [List.find?_eq_none]
      intro x hx
      simpa using h x (List.mem_reverse.mp hx)
    simp [refreshThreadRoot, hf]
  · rintro ⟨x, hx, hxid⟩
    cases hf : msgs.reverse.find? (fun m => m.id == t.id) with
    | none =>
      rw [List.find?_eq_none] at hf
      have := hf x (List.mem_reverse.mpr hx)
      simp [hxid] at this
    | some m' =>
      have hm'id : m'.id = t.id := by
        have := List.find?_some hf
        simpa using this
      rcases find?_decomp hf with ⟨pre, post, hl, hpre⟩
      refine ⟨m', post.reverse, pre.reverse, ?_, hm'id, ?_, ?_⟩
      · simp [refreshThreadRoot, hf]
      · have hmsgs : msgs = (pre ++ m' :: post).reverse := by
          rw [← hl, List.reverse_reverse]
        rw [hmsgs]
        simp
      · intro y hy
        have := hpre y (List.mem_reverse.mp hy)
        simpa using this

theorem thread_root_refresh_witness :
    (∃ x ∈ [exReceived, exRootEdited], x.id = exRoot.id) ∧
    (∃ m' pre post,
      refreshThreadRoot [exReceived, exRootEdited] (some exRoot) = some m' ∧
      m'.id = exRoot.id ∧
      [exReceived, exRootEdited] = pre ++ m' :: post ∧ ∀ x ∈ post, x.id ≠ exRoot.id) :=
  ⟨by decide, (thread_root_refresh [exReceived, exRootEdited] exRoot).2 (by decide)⟩

/-- C7: after a successful fetch, the main list sets `hasMore` to true iff
the returned page's length equals the requested page size, and the thread
sets `threadHasMore` to true iff the returned page's length equals its
fixed page size of 50; a short page turns the flag off. -/
theorem hasMore_iff_full_page (v : ViewState) (cs cs' : ChannelState) (limit : Nat)
    (page newMessages : List Message)
    (hm : loadMoreBlocked v = false) (ht : loadMoreThreadBlocked v = false) :
    ((loadMore v limit (Except.ok (page, newMessages))).view.hasMore = true ↔
      page.length = limit) ∧
    ((loadMoreThread v cs (Except.ok (page, cs'))).view.threadHasMore = true ↔
      page.length = 50) := by
  obtain ⟨t, hvt⟩ : ∃ t, v.thread = some t := by
    cases hvt : v.thread
    · simp [loadMoreThreadBlocked, hvt] at ht
    · exact ⟨_, rfl⟩
  constructor
  · simp [loadMore, hm]
  · simp [loadMoreThread, ht, hvt]

theorem hasMore_iff_full_page_witness :
    loadMoreBlocked exViewBoth = false ∧ loadMoreThreadBlocked exViewBoth = false ∧
    (((loadMore exViewBoth 1 (Except.ok ([exRoot], [exRoot, exReceived]))).view.hasMore = true ↔
      [exRoot].length = 1) ∧
     ((loadMoreThread exViewBoth ⟨[], []⟩ (Except.ok ([exRoot], ⟨[], []⟩))).view.threadHasMore = true ↔
      [exRoot].length = 50)) :=
  ⟨by decide, by decide,
    hasMore_iff_full_page exViewBoth ⟨[], []⟩ ⟨[], []⟩ 1 [exRoot] [exRoot, exReceived]
      (by decide) (by decide)⟩

/-- C8: for a `message.new` event, the chosen side effect is — mark the
channel read (throttled) iff the document is foregrounded, the author is
not the local user, and the message counts for the main channel; show the
recomputed unread count in the document-title badge (without marking
read) iff the document is backgrounded under the same authorship and
main-channel conditions; and an event authored by the local user, or a
thread reply with `parent_id` set and `show_in_channel` false, triggers
neither. -/
theorem new_message_read_effect (clientUserId : String) (documentHidden : Bool)
    (unread : Nat) (m : Message) :
    (newMessageEffect clientUserId documentHidden unread m = ReadEffect.markRead ↔
      documentHidden = false ∧ m.user_id ≠ clientUserId ∧
        ¬(m.parent_id.isSome = true ∧ m.show_in_channel = false)) ∧
    (newMessageEffect clientUserId documentHidden unread m = ReadEffect.titleBadge unread ↔
      documentHidden = true ∧ m.user_id ≠ clientUserId ∧
        ¬(m.parent_id.isSome = true ∧ m.show_in_channel = false)) ∧
    ((m.user_id = clientUserId ∨ (m.parent_id.isSome = true ∧ m.show_in_channel = false)) →
      newMessageEffect clientUserId documentHidden unread m = ReadEffect.noEffect) := by
  simp only [newMessageEffect]
  by_cases hp : m.parent_id.isSome <;> by_cases hs : m.show_in_channel <;>
    by_cases hu : m.user_id = clientUserId <;> cases documentHidden <;>
      simp [hp, hs, hu]

theorem new_message_read_effect_witness :
    (exOtherMsg.user_id = "bob" ∨
      (exOtherMsg.parent_id.isSome = true ∧ exOtherMsg.show_in_channel = false)) ∧
    newMessageEffect "bob" false 3 exOtherMsg = ReadEffect.noEffect :=
  ⟨Or.inl rfl, (new_message_read_effect "bob" false 3 exOtherMsg).2.2 (Or.inl rfl)⟩

/-- C9 counterexample: the claim that any read-by list failing the
single-entry-is-me condition takes the read-status avatar path is false at
the empty list — for the local user's delivered last message with an empty
`readBy`, the component renders the Delivered check, not the read-status
avatar. -/
theorem read_by_me_only_counterexample :
    justReadByMe [] "me" = false ∧
    messageTeamStatus true "regular" "received" "m1" [] false (some "m1") "me" =
      TeamStatusRender.delivered ∧
    messageTeamStatus true "regular" "received" "m1" [] false (some "m1") "me" ≠
      TeamStatusRender.readList := by
  decide

/-- C9 (amended): the "read by me only" condition holds iff the read-by
list has exactly one entry and that entry's user identifier equals the
local client user's; for the local user's non-error, non-sending message
outside a thread list, every non-empty read-by list failing that
condition takes the read-status avatar path, while an empty read-by list
skips the read-status path. -/
theorem read_by_me_only (readBy : List UserRef) (uid mtype mstatus mid : String)
    (lastReceivedId : Option String)
    (hty : mtype ≠ "error") (hst : mstatus ≠ "sending") :
    (justReadByMe readBy uid = true ↔ ∃ r, readBy = [r] ∧ r.id = uid) ∧
    (readBy ≠ [] → justReadByMe readBy uid = false →
      messageTeamStatus true mtype mstatus mid readBy false lastReceivedId uid =
        TeamStatusRender.readList) ∧
    (messageTeamStatus true mtype mstatus mid [] false lastReceivedId uid ≠
      TeamStatusRender.readList) := by
  refine ⟨?_, ?_, ?_⟩
  · cases readBy with
    | nil => simp [justReadByMe]
    | cons r rest =>
      cases rest with
      | nil => simp [justReadByMe]
      | cons s rest2 => simp [justReadByMe]
  · intro hne hjr
    simp [messageTeamStatus, hty, hst, hne, hjr]
  · by_cases h1 : mstatus = "received" <;>
      by_cases h2 : lastReceivedId = some mid <;>
        simp [messageTeamStatus, hty, hst, h1, h2]

theorem read_by_me_only_witness :
    ("regular" ≠ "error" ∧ "received" ≠ "sending" ∧
      [exMe, exBob] ≠ ([] : List UserRef) ∧ justReadByMe [exMe, exBob] "me" = false) ∧
    messageTeamStatus true "regular" "received" "m1" [exMe, exBob] false (some "m1") "me" =
      TeamStatusRender.readList :=
  ⟨⟨by decide, by decide, by decide, by decide⟩,
    (read_by_me_only [exMe, exBob] "me" "regular" "received" "m1" (some "m1")
      (by decide) (by decide)).2.1 (by decide) (by decide)⟩

/-- C10: `removeMessage` rebinds the exposed thread reply sequence to the
store entry under the removed message's `parent_id`: with `parent_id`
absent it becomes the empty sequence regardless of the view's open
thread, and exactly when `parent_id` is the open thread root's identifier
it is the open thread's post-removal reply list; the removed identifier
is gone from the main sequence. -/
theorem removeMessage_thread_reset (cs : ChannelState) (v : ViewState) (m : Message) :
    (m.parent_id = none → (removeMessage cs v m).2.threadMessages = []) ∧
    (∀ p, m.parent_id = some p →
      (removeMessage cs v m).2.threadMessages =
        threadsGet (cs.removeMessage m).threads p) ∧
    (∀ t, v.thread = some t → m.parent_id = some t.id →
      (removeMessage cs v m).2.threadMessages =
        threadsGet (cs.removeMessage m).threads t.id) ∧
    ((removeMessage cs v m).2.threadMessages =
      (removeMessage cs { v with thread := none } m).2.threadMessages) ∧
    (∀ x ∈ (removeMessage cs v m).1.messages, x.id ≠ m.id) := by
  refine ⟨?_, ?_, ?_, ?_, ?_⟩
  · intro h
    simp [removeMessage, h]
  · intro p hp
    simp [removeMessage, hp]
  · intro t _ hp
    simp [removeMessage, hp]
  · cases hp : m.parent_id <;> simp [removeMessage, hp]
  · intro x hx
    have := (List.mem_filter.mp hx).2
    simpa using this

theorem removeMessage_thread_reset_witness :
    exReceived.parent_id = none ∧
    (removeMessage ⟨[exReceived], []⟩ exViewBoth exReceived).2.threadMessages = [] :=
  ⟨rfl, (removeMessage_thread_reset ⟨[exReceived], []⟩ exViewBoth exReceived).1 rfl⟩

end StreamChatReact
